import Mathlib

/-!
Verification of the Taiwan stock screener (`stock_screener`) against its
natural-language specification.

The development is a shallow embedding of the Python sources:
  * `src/data/fetcher.py`   — quote normalization, history store with
    primary/fallback providers and a per-run cache;
  * `src/screeners/base.py` — stage statistics;
  * `src/screeners/filters.py` — the individual filter stages;
  * `src/pipeline.py`       — the two strategy chains and the right-side
    final ranking;
  * `src/foreign_sentiment.py` — the spot/futures cross-classification;
  * `src/bullish_pool.py`   — the daily pool diff/update;
  * `src/main.py`           — the orchestrator exit paths.

Python floats are modelled by `ℚ`; machine volumes by `ℤ`/`ℕ`.  Python's
`round(x, n)` is modelled by rounding `x·10ⁿ` to the nearest integer (the
tie-breaking rule is immaterial to every statement proved here).  Remote
HTTP payloads are modelled as oracle inputs delivered at the exact program
point where the source consumes the parsed payload.
-/

/-- Rounding to two decimal places, the model of Python `round(x, 2)` as used
on `change_pct` throughout `fetcher.py`. -/
def round2 (x : ℚ) : ℚ := (round (x * 100) : ℤ) / 100

/-- Rounding to one decimal place, the model of Python `round(x, 1)`. -/
def round1 (x : ℚ) : ℚ := (round (x * 10) : ℤ) / 10

/-- Arithmetic mean of a rational list (`pandas` `Series.mean`); the sources
only evaluate it on nonempty lists, guarded by explicit length checks. -/
def listMean (l : List ℚ) : ℚ := l.sum / l.length

/-- Last `n` elements of a list, the model of `pandas` `.tail(n)`. -/
def lastN (n : Nat) (l : List α) : List α := l.drop (l.length - n)

/-- A realtime quote row, the common shape produced by all four quote-source
normalizers in `fetcher.py` (`_fetch_twse_realtime`, `_fetch_twse_intraday`,
`_fetch_tpex_realtime`, `_fetch_tpex_intraday`). -/
structure Quote where
  stock_id : String
  stock_name : String
  price : ℚ
  open_price : ℚ
  high : ℚ
  low : ℚ
  volume : ℤ
  prev_close : ℚ
  change_pct : ℚ
  market : String
deriving DecidableEq, Repr

/-- Builds one quote row from the parsed wire fields, exactly as the row
dictionaries are assembled in `fetcher.py` (e.g. lines 129–142 and 211–225):
`change_pct = round(((price - prev_close) / prev_close * 100), 2)` when
`prev_close > 0`, else `0`. -/
def mkQuoteRow (sid name : String) (price opn high low : ℚ) (volume : ℤ)
    (prev_close : ℚ) (market : String) : Quote :=
  { stock_id := sid
    stock_name := name
    price := price
    open_price := opn
    high := high
    low := low
    volume := volume
    prev_close := prev_close
    change_pct := if prev_close > 0 then round2 ((price - prev_close) / prev_close * 100) else 0
    market := market }

/-- Terminal outcomes of the orchestrator's `try` block in `main.py`
(`main`, lines 306–333). -/
inductive RunOutcome
  | success
  | uncaughtError
  | interrupted
deriving DecidableEq, Repr

/-- Process exit code of `main.py`: falling off the end of `main` exits 0;
`except KeyboardInterrupt` runs `sys.exit(0)`; `except Exception` runs
`sys.exit(1)`. -/
def mainExitCode : RunOutcome → Nat
  | .success => 0
  | .uncaughtError => 1
  | .interrupted => 0

/-- Renders a rational as a percent string with one decimal place, the model
of the Python f-string `f"{x:.1f}%"` (for the nonnegative pass rates the
sources feed it). -/
def fmtPct1 (x : ℚ) : String :=
  let t : ℤ := round (x * 10)
  toString (t / 10) ++ "." ++ toString (t % 10) ++ "%"

/-- Per-stage statistics dictionary, `BaseScreener.get_stats`
(`screeners/base.py` lines 38–47). -/
structure StageStats where
  step : Nat
  name : String
  input : Nat
  output : Nat
  filtered_out : Int
  pass_rate : String
deriving DecidableEq, Repr

/-- The model of `BaseScreener.get_stats`: the pass-rate string is
`f"{output/input*100:.1f}%"` guarded by `if self.input_count`, and `"0%"`
otherwise. -/
def getStats (step : Nat) (name : String) (input output : Nat) : StageStats :=
  { step := step
    name := name
    input := input
    output := output
    filtered_out := (input : Int) - (output : Int)
    pass_rate := if input ≠ 0 then fmtPct1 ((output : ℚ) / (input : ℚ) * 100) else "0%" }

/-- One daily OHLCV candle as produced by the history providers
(`fetcher.py`, columns `[date, open, high, low, close, volume]`). -/
structure Candle where
  date : String
  open_price : ℚ
  high : ℚ
  low : ℚ
  close : ℚ
  volume : ℤ
deriving DecidableEq, Repr

/-- Mutable provider state of a `DataFetcher` instance
(`fetcher.py` `__init__`): the per-run history cache keyed by
`f"{stock_id}_{days}"`, the `_finmind_available` flag and the
`_finmind_fail_count` counter (`_max_fail_count = 3`). -/
structure FetchState where
  hist_data_cache : List (String × List Candle)
  finmind_available : Bool
  finmind_fail_count : Nat
deriving DecidableEq, Repr

/-- Initial `DataFetcher` state: empty cache, primary available, zero
consecutive failures. -/
def initFetchState : FetchState :=
  { hist_data_cache := [], finmind_available := true, finmind_fail_count := 0 }

/-- The `_max_fail_count` constant of `DataFetcher`. -/
def maxFailCount : Nat := 3

/-- Outcome of one HTTP exchange with the primary (FinMind) provider, at the
point where `_get_historical_from_finmind` inspects the parsed JSON:
`quota` is `status == 402`; `bad` is any non-200 status, missing `data`
field, or a raised exception; `ok d` is status 200 with parsed rows `d`
(possibly empty). -/
inductive FinMindResp
  | quota
  | bad
  | ok (data : List Candle)
deriving DecidableEq, Repr

/-- State transition and result of `_get_historical_from_finmind`
(`fetcher.py` lines 500–552): a 402 increments the consecutive-failure
counter and clears `_finmind_available` only when the counter reaches
`_max_fail_count`; other failures just increment the counter; an empty
200-payload returns empty without touching the counter; a nonempty payload
resets the counter and returns the last `days` rows. -/
def finmindFetch (s : FetchState) (days : Nat) (resp : FinMindResp) :
    FetchState × List Candle :=
  match resp with
  | .quota =>
      let fc := s.finmind_fail_count + 1
      ({ s with finmind_fail_count := fc,
                finmind_available := if maxFailCount ≤ fc then false else s.finmind_available },
       [])
  | .bad => ({ s with finmind_fail_count := s.finmind_fail_count + 1 }, [])
  | .ok [] => (s, [])
  | .ok (c :: cs) => ({ s with finmind_fail_count := 0 }, lastN days (c :: cs))

/-- Result of one `get_historical_data` call, together with the observable
of whether the primary provider was consulted (the call under
`if self._finmind_available:`). -/
structure FetchResult where
  state : FetchState
  data : List Candle
  consulted_primary : Bool
deriving DecidableEq, Repr

/-- The cache key `f"{stock_id}_{days}"`. -/
def cacheKey (stock_id : String) (days : Nat) : String :=
  stock_id ++ "_" ++ toString days

/-- The model of `DataFetcher.get_historical_data` (`fetcher.py` lines
475–498).  `primary` is the primary provider's response for this call and
`fallback` the (already merged, deduplicated and tailed) result of
`_get_historical_from_twse`, abstracted as an oracle value since the claims
below depend on it only as an uninterpreted candle list.  Cache hit short-circuits;
on a miss the primary is consulted only while `_finmind_available`; an empty
primary result falls over to the fallback; only a nonempty final result is
written to the cache. -/
def getHistoricalData (s : FetchState) (stock_id : String) (days : Nat)
    (primary : FinMindResp) (fallback : List Candle) : FetchResult :=
  match s.hist_data_cache.lookup (cacheKey stock_id days) with
  | some df => { state := s, data := df, consulted_primary := false }
  | none =>
      let pr := if s.finmind_available then finmindFetch s days primary else (s, [])
      let df2 := if pr.2 = [] then fallback else pr.2
      let s2 := if df2 = [] then pr.1
                else { pr.1 with
                       hist_data_cache :=
                         pr.1.hist_data_cache ++ [(cacheKey stock_id days, df2)] }
      { state := s2, data := df2, consulted_primary := s.finmind_available }

/-- One history request of a run: the arguments of a `get_historical_data`
call together with the provider responses the network would deliver for it. -/
structure HistRequest where
  stock_id : String
  days : Nat
  primary : FinMindResp
  fallback : List Candle
deriving DecidableEq, Repr

/-- Runs a sequence of `get_historical_data` calls against one
`DataFetcher` state, returning the final state and the per-call results. -/
def runFetch (s : FetchState) : List HistRequest → FetchState × List FetchResult
  | [] => (s, [])
  | r :: rs =>
      let res := getHistoricalData s r.stock_id r.days r.primary r.fallback
      let rest := runFetch res.state rs
      (rest.1, res :: rest.2)

/-- A scalar cell value of a derived dataframe column.  `na` models
`numpy.nan` (every `pandas` comparison against it is false). -/
inductive CVal
  | s (v : String)
  | q (v : ℚ)
  | i (v : ℤ)
  | b (v : Bool)
  | na
deriving DecidableEq, Repr

/-- A batch row: the fixed quote core produced by the quote source plus the
open map of derived columns accumulated by the stages (spec §3 "Batch",
design note "Dynamic tabular rows").  The human-display `*_info` string
columns of the stages are omitted: no stage and no claim reads them. -/
structure Row where
  quote : Quote
  extras : List (String × CVal)
deriving DecidableEq, Repr

/-- Column assignment `df[k] = v` on the derived-column map: overwrite the
existing column in place, otherwise append it. -/
def setCol (es : List (String × CVal)) (k : String) (v : CVal) :
    List (String × CVal) :=
  if es.any (fun p => p.1 = k) then es.map (fun p => if p.1 = k then (k, v) else p)
  else es ++ [(k, v)]

/-- Sequential column assignments. -/
def setCols (es : List (String × CVal)) (l : List (String × CVal)) :
    List (String × CVal) :=
  l.foldl (fun es p => setCol es p.1 p.2) es

/-- The shared shape of every `screen` body in `screeners/filters.py`: for
each row compute its derived column values and its boolean mask entry
(`f`), assign the columns, and keep exactly the rows whose mask entry is
true (`df[mask].reset_index(drop=True)`). -/
def runScreen (f : Row → List (String × CVal) × Bool) (rows : List Row) :
    List Row :=
  rows.filterMap fun r =>
    if (f r).2 then some { r with extras := setCols r.extras (f r).1 } else none

/-- The slice of the `analyze_institutional_behavior` result dictionary
(`institutional_tracker.py`) that `QuietAccumulationScreener` reads. -/
structure AccumAnalysis where
  foreign_consecutive_buy : Nat
  trust_consecutive_buy : Nat
  foreign_stability : ℚ
  trust_stability : ℚ
  foreign_20d_sum : ℤ
  trust_20d_sum : ℤ
deriving DecidableEq, Repr

/-- Environment of side queries a stage may issue, one field per
`DataFetcher`/tracker call appearing in `screeners/filters.py`.  Each field
delivers the value the corresponding Python helper returns at its return
site; `Option.none` models the empty dataframe / empty dict answer.

  * `hist sid days` — `get_historical_data`;
  * `market_cap_table` — `get_market_cap_data` (`none` = empty dataframe),
    giving market cap in hundred-millions per stock id;
  * `shares_table` — `get_shares_outstanding` (`none` = empty dataframe),
    giving `NumberOfSharesIssued` per stock id;
  * `benchmark_change` — `get_benchmark_change`;
  * `time_ratio` — the clock-derived `time_ratio` of `VolumeRatioScreener`
    (`max(elapsed_minutes / 270, 0.1)`);
  * `revenue sid` — the year-over-year growth-rate list assembled by
    `RevenueGrowthScreener._get_revenue_data` before its tail computations;
  * `eps4q sid` — the trailing-four-quarter EPS sum of
    `PERatioScreener._get_pe_data` (`none` = empty/failed payload);
  * `major_holder sid` — the date-sorted ≥1000-lot holder percent series of
    `MajorHolderScreener._get_major_holder_data`;
  * `accum sid` — `InstitutionalTracker.analyze_institutional_behavior`. -/
structure Oracles where
  hist : String → Nat → List Candle
  market_cap_table : Option (String → Option ℚ)
  shares_table : Option (String → Option ℤ)
  benchmark_change : Option ℚ
  time_ratio : ℚ
  revenue : String → Option (List ℚ)
  eps4q : String → Option ℚ
  major_holder : String → Option (List ℚ)
  accum : String → Option AccumAnalysis

/-! Screening parameters, the `SCREENING_PARAMS` dictionary of
`config/settings.py` (latest revision). -/

def market_cap_min : ℚ := 50
def market_cap_max : ℚ := 50000
def revenue_growth_min : ℚ := 0
def revenue_months_positive : Nat := 1
def pe_ratio_min : ℚ := 0
def pe_ratio_max : ℚ := 35
def higher_lows_lookback_days : Nat := 60
def higher_lows_window : Nat := 5
def higher_lows_min_confirms : Nat := 1
def higher_lows_tolerance_pct : ℚ := 1
def pullback_min_pct : ℚ := 3
def pullback_max_pct : ℚ := 20
def pullback_high_lookback_days : Nat := 20
def pullback_short_ma : List Nat := [5, 10]
def pullback_long_ma : List Nat := [20, 60]
def healthy_volume_ratio_max : ℚ := 3/2
def turnover_volume_ratio_min : ℚ := 2
def turnover_volume_ratio_max : ℚ := 4
def exhaustion_price_change_min : ℚ := 5
def volume_avg_days : Nat := 20
def volume_shrink_days : Nat := 3
def volume_shrink_threshold : ℚ := 7/10
def rsi_period : Nat := 14
def rsi_oversold : ℚ := 45
def rsi_require_upturn : Bool := true
def rsi_require_above_ma5 : Bool := false
def turnover_rate_min : ℚ := 1/2
def turnover_rate_max : ℚ := 20
def major_holder_min_pct : ℚ := 20
def major_holder_increase_weeks : Nat := 1
def accumulation_min_days : Nat := 2
def accumulation_max_stability : ℚ := 2
def price_change_min : ℚ := 3
def price_change_max : ℚ := 10
def volume_ratio_min : ℚ := 3/2
def long_ma_period : Nat := 60
def intraday_high_threshold : ℚ := 97/100

/-- Rolling mean with window `k` (`Series.rolling(k).mean()`): `none` models
the leading `NaN` entries. -/
def rollingMean (k : Nat) (l : List ℚ) : List (Option ℚ) :=
  (List.range l.length).map fun i =>
    if k ≤ i + 1 then some (listMean ((l.take (i + 1)).drop (i + 1 - k))) else none

/-- Mean of a slice of a rolling series, skipping `NaN` entries
(`pandas` default `skipna=True`); the all-`NaN` mean is `NaN`. -/
def optMean (l : List (Option ℚ)) : Option ℚ :=
  let v := l.filterMap id
  if v.isEmpty then none else some (listMean v)

/-- Tail of the recursive exponentially-weighted mean
(`Series.ewm(span, adjust=False).mean()`). -/
def ewmFrom (alpha prev : ℚ) : List ℚ → List ℚ
  | [] => []
  | x :: xs =>
      let e := (1 - alpha) * prev + alpha * x
      e :: ewmFrom alpha e xs

/-- The exponentially-weighted mean series with `adjust=False`:
`e₀ = x₀`, `eᵢ = (1-α)·eᵢ₋₁ + α·xᵢ`. -/
def ewmMean (alpha : ℚ) : List ℚ → List ℚ
  | [] => []
  | x :: xs => x :: ewmFrom alpha x xs

/-- The number of adjacent pairs `(prev, cur)`, counted backwards from the
end of the list, for which `ok prev cur` holds — the shape of the
`for i in range(len - 1, 0, -1): ... else: break` loops of the sources. -/
def countTrailingPairs (ok : ℚ → ℚ → Bool) (l : List ℚ) : Nat :=
  (((l.zip l.tail).reverse).takeWhile fun p => ok p.1 p.2).length

/-- The `MarketCapScreener.screen` row step (`filters.py` lines 146–175): with a
market-cap table, merge the cap (hundred-millions) and keep
`min ≤ cap ≤ max` (a missing cap is `NaN`, excluded both by the mask and by
`dropna`); with an empty table, fall back to the traded-value proxy
`trade_value = volume * price * 0.1` against `min_cap * 0.1` and mark
`market_cap` as `NaN`. -/
def marketCapRow (o : Oracles) (r : Row) : List (String × CVal) × Bool :=
  match o.market_cap_table with
  | some tbl =>
      match tbl r.quote.stock_id with
      | some mc => ([("market_cap", .q mc)], decide (market_cap_min ≤ mc ∧ mc ≤ market_cap_max))
      | none => ([("market_cap", .na)], false)
  | none =>
      let tv := (r.quote.volume : ℚ) * r.quote.price * (1/10)
      ([("trade_value", .q tv), ("market_cap", .na)], decide (market_cap_min * (1/10) ≤ tv))

/-- The `RevenueGrowthScreener.screen` row step (`filters.py` lines 993–1034):
missing revenue keeps the row; otherwise require the latest year-over-year
growth above the floor and enough trailing positive months. -/
def revenueGrowthRow (o : Oracles) (r : Row) : List (String × CVal) × Bool :=
  match o.revenue r.quote.stock_id with
  | none => ([("revenue_valid", .b true), ("revenue_growth", .na)], true)
  | some [] => ([("revenue_valid", .b true), ("revenue_growth", .na)], true)
  | some (g :: gs) =>
      let latest := round1 ((g :: gs).getLastD 0)
      let positive_months := (((g :: gs).reverse).takeWhile fun x => decide (0 < x)).length
      let valid := decide (revenue_growth_min ≤ latest) &&
        decide (revenue_months_positive ≤ positive_months)
      ([("revenue_valid", .b valid), ("revenue_growth", .q latest)], valid)

/-- The `PERatioScreener.screen` row step (`filters.py` lines 1112–1208):
missing data keeps the row; non-positive trailing EPS yields `pe_ratio = 0`
(which fails `pe_min < pe`); otherwise `pe = round(price / eps, 1)` kept in
`(pe_min, pe_max]`. -/
def peRatioRow (o : Oracles) (r : Row) : List (String × CVal) × Bool :=
  match o.eps4q r.quote.stock_id with
  | none => ([("pe_valid", .b true), ("pe_ratio", .na)], true)
  | some eps =>
      let pe : ℚ := if eps ≤ 0 then 0 else round1 (r.quote.price / eps)
      let valid := decide (pe_ratio_min < pe ∧ pe ≤ pe_ratio_max)
      ([("pe_valid", .b valid), ("pe_ratio", .q pe)], valid)

/-- Modelled from the spec: `HigherLowsScreener` is imported and placed
fourth in the left chain by `pipeline.py`, but its class body is absent from
the sources; this row step follows spec §4.4 left stage 4 — within the last
`L` days locate the 5-bar-window local minima of the lows and require at
least `N` adjacent strictly-increasing-with-tolerance confirmations;
insufficient history drops the row. -/
def higherLowsRow (o : Oracles) (r : Row) : List (String × CVal) × Bool :=
  let candles := o.hist r.quote.stock_id higher_lows_lookback_days
  if candles.length < 2 * higher_lows_window + 1 then
    ([("higher_lows_valid", .b false)], false)
  else
    let lows := candles.map (·.low)
    let n := lows.length
    let mins := (List.range n).filterMap fun i =>
      if higher_lows_window ≤ i ∧ i + higher_lows_window < n then
        let lo := lows.getD i 0
        let win := (lows.drop (i - higher_lows_window)).take (2 * higher_lows_window + 1)
        if win.all fun x => decide (lo ≤ x) then some lo else none
      else none
    let confirms := ((mins.zip mins.tail).filter fun p =>
      decide (p.1 * (1 - higher_lows_tolerance_pct / 100) < p.2)).length
    let valid := decide (higher_lows_min_confirms ≤ confirms)
    ([("higher_lows_valid", .b valid)], valid)

/-- The `PullbackScreener.screen` row step (`filters.py` lines 753–819): needs 60
days of history; price below some short MA, above some long MA, and the drop
from the 20-day high within the configured band. -/
def pullbackRow (o : Oracles) (r : Row) : List (String × CVal) × Bool :=
  let candles := o.hist r.quote.stock_id 70
  if candles.length < 60 then
    ([("pullback_valid", .b false), ("pullback_pct", .na)], false)
  else
    let closes := candles.map (·.close)
    let highs := candles.map (·.high)
    let ma := fun p => listMean (lastN p closes)
    let below_short := pullback_short_ma.any fun p => decide (r.quote.price < ma p)
    let above_long := pullback_long_ma.any fun p => decide (ma p < r.quote.price)
    let recent_high := ((lastN pullback_high_lookback_days highs).max?).getD 0
    let pullback_pct := (recent_high - r.quote.price) / recent_high * 100
    let proper := decide (pullback_min_pct ≤ pullback_pct ∧ pullback_pct ≤ pullback_max_pct)
    let valid := below_short && above_long && proper
    ([("pullback_valid", .b valid), ("pullback_pct", .q pullback_pct)], valid)

/-- Modelled from the spec: `VolumePriceHealthScreener` is imported and
placed sixth in the left chain by `pipeline.py`, but its class body is
absent from the sources; this row step follows spec §4.4 left stage 6 —
exhaustion (window-max volume with a large up move) is dropped, healthy
(window-high price on at most `healthy_ratio ×` average volume) and
turnover (volume within `[turnover_min, turnover_max] ×` average) are kept,
anything else is dropped. -/
def volumePriceHealthRow (o : Oracles) (r : Row) : List (String × CVal) × Bool :=
  let candles := o.hist r.quote.stock_id volume_avg_days
  if candles.length < volume_avg_days then ([("vp_health", .s "")], false)
  else
    let vols := candles.map fun c => (c.volume : ℚ) / 1000
    let avg := listMean (lastN volume_avg_days vols)
    let cv := (r.quote.volume : ℚ)
    let window_max_vol := (vols.max?).getD 0
    let window_high := ((candles.map (·.high)).max?).getD 0
    let exhaustion := decide (window_max_vol ≤ cv) &&
      decide (exhaustion_price_change_min ≤ r.quote.change_pct)
    let healthy := decide (window_high ≤ r.quote.price) &&
      decide (cv ≤ healthy_volume_ratio_max * avg)
    let turnover := decide (turnover_volume_ratio_min * avg ≤ cv ∧
      cv ≤ turnover_volume_ratio_max * avg)
    let cls := if exhaustion then "exhaustion"
      else if healthy then "healthy" else if turnover then "turnover" else "other"
    ([("vp_health", .s cls)], !exhaustion && (healthy || turnover))

/-- The `VolumeShrinkScreener.screen` row step (`filters.py` lines 832–893):
count trailing days of (5%-tolerant) shrinking volume and compare today's
volume with the 20-day average; either condition keeps the row. -/
def volumeShrinkRow (o : Oracles) (r : Row) : List (String × CVal) × Bool :=
  let candles := o.hist r.quote.stock_id (volume_avg_days + 5)
  if candles.length < volume_avg_days then
    ([("shrink_valid", .b false), ("volume_ratio", .na), ("shrink_days", .i 0)], false)
  else
    let volumes := candles.map fun c => (c.volume : ℚ) / 1000
    let avg := listMean (lastN volume_avg_days volumes)
    let recent := lastN (volume_shrink_days + 1) volumes
    let consec := countTrailingPairs (fun a b => decide (b < a * (105/100))) recent
    let ratio : ℚ := if 0 < avg then (r.quote.volume : ℚ) / avg else 1
    let valid := decide (volume_shrink_days ≤ consec) ||
      decide (ratio < volume_shrink_threshold)
    ([("shrink_valid", .b valid), ("volume_ratio", .q ratio), ("shrink_days", .i consec)],
     valid)

/-- The `RSIOversoldScreener._calculate_rsi_and_ma5` and `screen` row step
(`filters.py` lines 1234–1326): Wilder RSI via `ewm(span=14, adjust=False)`
over the gain/loss split of the close diffs (the leading diff `NaN` becomes
`0` under `.where`), rounded to one decimal.  A zero average loss gives
`rs = ∞` hence RSI `100`; a zero average gain and loss gives `NaN`, and
every comparison against `NaN` is false.  Missing or short history keeps
the row. -/
def rsiOversoldRow (o : Oracles) (r : Row) : List (String × CVal) × Bool :=
  let candles := o.hist r.quote.stock_id (rsi_period + 15)
  if candles.length < rsi_period + 2 then ([("rsi_valid", .b true), ("rsi", .na)], true)
  else
    let closes := candles.map (·.close)
    let ma5 := listMean (lastN 5 closes)
    let deltas := (closes.zip closes.tail).map fun p => p.2 - p.1
    let gains := 0 :: deltas.map fun d => if 0 < d then d else 0
    let losses := 0 :: deltas.map fun d => if d < 0 then -d else 0
    let alpha : ℚ := 2 / ((rsi_period : ℚ) + 1)
    let ag := ewmMean alpha gains
    let al := ewmMean alpha losses
    let rsiAt := fun (g l : ℚ) =>
      if l = 0 then (if g = 0 then none else some (100 : ℚ))
      else some (100 - 100 / (1 + g / l))
    let rsi_today := (rsiAt (ag.getLastD 0) (al.getLastD 0)).map round1
    let rsi_yesterday :=
      (rsiAt ((lastN 2 ag).headD 0) ((lastN 2 al).headD 0)).map round1
    let is_upturn := match rsi_today, rsi_yesterday with
      | some t, some y => decide (y < t)
      | _, _ => false
    let is_oversold := match rsi_today with
      | some t => decide (t ≤ rsi_oversold)
      | none => false
    let is_above_ma5 := decide (ma5 < r.quote.price)
    let valid := is_oversold &&
      (if rsi_require_upturn then is_upturn else true) &&
      (if rsi_require_above_ma5 then is_above_ma5 else true)
    let rsiCol := match rsi_today with
      | some t => CVal.q t
      | none => CVal.na
    ([("rsi_valid", .b valid), ("rsi", rsiCol)], valid)

/-- The `TurnoverRateScreener.screen` row step (`filters.py` lines 92–132):
turnover from shares outstanding when known, else the capped 20-day
average-volume proxy, else `NaN` (dropped); keep within `[min, max]`. -/
def turnoverRateRow (o : Oracles) (r : Row) : List (String × CVal) × Bool :=
  let volume_shares : ℚ := (r.quote.volume : ℚ) * 1000
  let fromShares : Option ℚ :=
    match o.shares_table with
    | some tbl =>
        match tbl r.quote.stock_id with
        | some shares => if 0 < shares then some (volume_shares / (shares : ℚ) * 100) else none
        | none => none
    | none => none
  let tr : Option ℚ :=
    match fromShares with
    | some t => some t
    | none =>
        let candles := o.hist r.quote.stock_id 20
        if candles.isEmpty then none
        else
          let avgv := listMean (candles.map fun c => (c.volume : ℚ))
          if 0 < avgv then some (min (volume_shares / avgv * 1) 20) else none
  match tr with
  | some t => ([("turnover_rate", .q t)],
      decide (turnover_rate_min ≤ t ∧ t ≤ turnover_rate_max))
  | none => ([("turnover_rate", .na)], false)

/-- The `MajorHolderScreener.screen` row step (`filters.py` lines 1339–1459):
from the last four weekly ≥1000-lot holder percents, require the (rounded)
current percent above the floor and a trailing strictly-increasing run of at
least the configured number of weeks; missing data keeps the row. -/
def majorHolderRow (o : Oracles) (r : Row) : List (String × CVal) × Bool :=
  match o.major_holder r.quote.stock_id with
  | none => ([("holder_valid", .b true), ("major_holder_pct", .na), ("holder_change", .na)], true)
  | some pcts =>
      let recent := lastN 4 pcts
      if recent.isEmpty then
        ([("holder_valid", .b true), ("major_holder_pct", .na), ("holder_change", .na)], true)
      else
        let current := round1 (recent.getLastD 0)
        let change : ℚ :=
          if 2 ≤ recent.length then round2 (recent.getLastD 0 - (lastN 2 recent).headD 0)
          else 0
        let weeks := countTrailingPairs (fun a b => decide (a < b)) recent
        let valid := decide (major_holder_min_pct ≤ current) &&
          decide (major_holder_increase_weeks ≤ weeks)
        ([("holder_valid", .b valid), ("major_holder_pct", .q current),
          ("holder_change", .q change)], valid)

/-- The `QuietAccumulationScreener.screen` row step (`filters.py` lines
913–977): keep when the foreign or the investment-trust side shows a long
enough consecutive-buy run with low stability and a positive 20-day net. -/
def quietAccumulationRow (o : Oracles) (r : Row) : List (String × CVal) × Bool :=
  match o.accum r.quote.stock_id with
  | none =>
      ([("accumulation_valid", .b false), ("foreign_consecutive", .i 0),
        ("trust_consecutive", .i 0)], false)
  | some a =>
      let foreign_valid := decide (accumulation_min_days ≤ a.foreign_consecutive_buy) &&
        decide (a.foreign_stability < accumulation_max_stability) &&
        decide (0 < a.foreign_20d_sum)
      let trust_valid := decide (accumulation_min_days ≤ a.trust_consecutive_buy) &&
        decide (a.trust_stability < accumulation_max_stability) &&
        decide (0 < a.trust_20d_sum)
      let valid := foreign_valid || trust_valid
      ([("accumulation_valid", .b valid),
        ("foreign_consecutive", .i a.foreign_consecutive_buy),
        ("trust_consecutive", .i a.trust_consecutive_buy)], valid)

/-- The `PriceChangeScreener.screen` row step (`filters.py` lines 21–26): keep
`min ≤ change_pct ≤ max`, no derived columns. -/
def priceChangeRow (_o : Oracles) (r : Row) : List (String × CVal) × Bool :=
  ([], decide (price_change_min ≤ r.quote.change_pct ∧
    r.quote.change_pct ≤ price_change_max))

/-- The `VolumeRatioScreener.screen` row step (`filters.py` lines 37–77): the
time-of-day-adjusted volume ratio against the 5-day average (shares → lots),
`NaN` (dropped) when history is empty or the average is zero. -/
def volumeRatioRow (o : Oracles) (r : Row) : List (String × CVal) × Bool :=
  let candles := o.hist r.quote.stock_id 5
  if candles.isEmpty then ([("volume_ratio", .na)], false)
  else
    let avg_volume := listMean (candles.map fun c => (c.volume : ℚ)) / 1000
    if 0 < avg_volume then
      let ratio := (r.quote.volume : ℚ) / (avg_volume * o.time_ratio)
      ([("volume_ratio", .q ratio)], decide (volume_ratio_min < ratio))
    else ([("volume_ratio", .na)], false)

/-- The `MovingAverageScreener.screen` row step (`filters.py` lines 224–267):
`price > MA5 > MA10 > MA20 > MA60` plus a positive MA60 slope comparing the
mean of the last five rolling values with the mean of the five values ten
days earlier (`NaN` entries skipped, an all-`NaN` mean comparing false). -/
def movingAverageRow (o : Oracles) (r : Row) : List (String × CVal) × Bool :=
  let candles := o.hist r.quote.stock_id (long_ma_period + 10)
  if candles.length < long_ma_period then ([("ma_bullish", .b false)], false)
  else
    let closes := candles.map (·.close)
    let ma := fun k => listMean (lastN k closes)
    let series := rollingMean 60 closes
    let slope :=
      if 10 ≤ series.length then
        let recent := optMean (lastN 5 series)
        let before :=
          if 15 ≤ series.length then optMean ((series.drop (series.length - 15)).take 5)
          else optMean ((series.drop (series.length - 10)).take 5)
        match recent, before with
        | some a, some b => decide (b < a)
        | _, _ => false
      else false
    let bullish := decide (ma 60 < ma 20 ∧ ma 20 < ma 10 ∧ ma 10 < ma 5 ∧
      ma 5 < r.quote.price)
    let valid := bullish && slope
    ([("ma_bullish", .b valid)], valid)

/-- The `RelativeStrengthScreener.screen` row step (`filters.py` lines 278–297):
against an unavailable or zero benchmark require `change_pct > 0`, else
require `change_pct > benchmark`. -/
def relativeStrengthRow (o : Oracles) (r : Row) : List (String × CVal) × Bool :=
  let cp := r.quote.change_pct
  match o.benchmark_change with
  | none => ([("relative_strength", .q cp)], decide (0 < cp))
  | some b =>
      if b = 0 then ([("relative_strength", .q cp)], decide (0 < cp))
      else ([("relative_strength", .q (cp / |b|))], decide (b < cp))

/-- The `IntradayHighScreener.screen` row step (`filters.py` lines 307–323):
keep `price ≥ threshold × high` and `price > open`. -/
def intradayHighRow (_o : Oracles) (r : Row) : List (String × CVal) × Bool :=
  let keep := decide (r.quote.high * intraday_high_threshold ≤ r.quote.price) &&
    decide (r.quote.open_price < r.quote.price)
  ([("intraday_strong", .b keep)], keep)

/-- The screener classes instantiated by `ScreeningPipeline`
(`pipeline.py` imports, lines 14–34). -/
inductive ScreenerKind
  | marketCap
  | revenueGrowth
  | peRatio
  | higherLows
  | pullback
  | volumePriceHealth
  | volumeShrink
  | rsiOversold
  | turnoverRate
  | majorHolder
  | quietAccumulation
  | priceChange
  | volumeRatio
  | movingAverage
  | relativeStrength
  | intradayHigh
deriving DecidableEq, Repr

/-- Per-row column/mask computation of each screener class. -/
def stageRow : ScreenerKind → Oracles → Row → List (String × CVal) × Bool
  | .marketCap => marketCapRow
  | .revenueGrowth => revenueGrowthRow
  | .peRatio => peRatioRow
  | .higherLows => higherLowsRow
  | .pullback => pullbackRow
  | .volumePriceHealth => volumePriceHealthRow
  | .volumeShrink => volumeShrinkRow
  | .rsiOversold => rsiOversoldRow
  | .turnoverRate => turnoverRateRow
  | .majorHolder => majorHolderRow
  | .quietAccumulation => quietAccumulationRow
  | .priceChange => priceChangeRow
  | .volumeRatio => volumeRatioRow
  | .movingAverage => movingAverageRow
  | .relativeStrength => relativeStrengthRow
  | .intradayHigh => intradayHighRow

/-- The `screen(batch) → batch` shape of a stage (spec §4.4): annotate and
filter the batch by the stage's row step. -/
def screenOf (k : ScreenerKind) (o : Oracles) : List Row → List Row :=
  runScreen (stageRow k o)

/-- The left-side (accumulation) chain,
`ScreeningPipeline._init_left_screeners` (`pipeline.py` lines 171–217), in
construction order. -/
def initLeftScreeners : List ScreenerKind :=
  [.marketCap, .revenueGrowth, .peRatio, .higherLows, .pullback,
   .volumePriceHealth, .volumeShrink, .rsiOversold, .turnoverRate,
   .majorHolder, .quietAccumulation]

/-- The right-side (momentum) chain,
`ScreeningPipeline._init_right_screeners` (`pipeline.py` lines 219–249). -/
def initRightScreeners : List ScreenerKind :=
  [.marketCap, .priceChange, .volumeRatio, .movingAverage,
   .relativeStrength, .intradayHigh]

/-- The `ScreeningPipeline._init_screeners` (`pipeline.py` lines 165–169):
"right" selects the momentum chain, anything else the left chain. -/
def initScreeners (mode : String) : List ScreenerKind :=
  if mode = "right" then initRightScreeners else initLeftScreeners

/-- The break-on-empty stage loop of `ScreeningPipeline.run`
(`pipeline.py` lines 293–305). -/
def runChain (o : Oracles) : List ScreenerKind → List Row → List Row
  | [], rows => rows
  | k :: ks, rows => if rows.isEmpty then rows else runChain o ks (screenOf k o rows)

/-- The ascending comparison on the `change_pct` column. -/
def leChangePct (a b : Row) : Bool :=
  decide (a.quote.change_pct ≤ b.quote.change_pct)

/-- The contract of `numpy.ndarray.argsort(kind="quicksort")`, applied at
the row-list level: the output is a permutation of the input that is
non-decreasing in the sort key.  This is everything numpy documents for the
default kind (introsort); it is explicitly NOT stable — among the `kind`
values only `"stable"`/`"mergesort"` guarantee that equal elements keep
their relative order, and the introsort partition does reorder tie groups
once a subarray exceeds its 16-element insertion-sort cutoff. -/
def SortsAsc (out l : List Row) : Prop :=
  out.Perm l ∧ out.Pairwise (fun a b => leChangePct a b = true)

/-- The model of `df.sort_values("change_pct", ascending=False)`
(`pipeline.py` line 309).  For a descending single-column sort, `pandas`
`nargsort` reverses the values, runs `argsort(kind="quicksort")` on them,
and reverses the resulting indexer; on the row list this composition is
`reverse ∘ argsort ∘ reverse`.  The numpy argsort routine itself is C code
outside this repository, so it enters the model as the parameter
`argsortAsc`, constrained in the theorems below only by its documented
contract `SortsAsc` — in particular, tie order is not constrained. -/
def sortByChangePctDesc (argsortAsc : List Row → List Row) (rows : List Row) :
    List Row :=
  (argsortAsc rows.reverse).reverse

/-- The right-mode final ranking of `ScreeningPipeline.run` (`pipeline.py`
lines 307–310): on a nonempty batch, sort by `change_pct` descending and
assign `rank = 1..N` positionally.  (`change_pct` is part of the fixed quote
core here, so the source's column-presence test is always true.) -/
def rankRightBatch (argsortAsc : List Row → List Row) (rows : List Row) :
    List Row :=
  if rows.isEmpty then rows
  else
    (sortByChangePctDesc argsortAsc rows).enum.map fun p =>
      { p.2 with extras := setCol p.2.extras "rank" (.i ((p.1 : ℤ) + 1)) }

/-- Spot-side reading of the foreign-sentiment analyzer
(`_fetch_spot_data`): the net buy in hundred-millions and the data date. -/
structure SpotData where
  net_buy_billion : ℚ
  date : String
deriving DecidableEq, Repr

/-- Futures-side reading (`_fetch_futures_data`): the open-interest change
in contracts. -/
structure FuturesData where
  oi_change : ℤ
deriving DecidableEq, Repr

/-- The sentiment labels of `ForeignSentimentAnalyzer`; the spec names them
BULLISH / HEDGE / BEARISH / BOTTOM / UNKNOWN. -/
def SENTIMENT_BULLISH : String := "絕對看多"

def SENTIMENT_HEDGE : String := "策略對沖"

def SENTIMENT_BEARISH : String := "絕對看空"

def SENTIMENT_BOTTOM : String := "底部佈局"

def SENTIMENT_UNKNOWN : String := "資料不足"

/-- The result dictionary of `ForeignSentimentAnalyzer.analyze`, without the
display-only `icon`/`detail` strings. -/
structure SentimentResult where
  sentiment : String
  spot_net : ℚ
  spot_direction : String
  futures_oi_change : ℤ
  futures_direction : String
  date : String
deriving DecidableEq, Repr

/-- The model of `ForeignSentimentAnalyzer.analyze`
(`foreign_sentiment.py` lines 42–115): start from the UNKNOWN defaults,
copy in whichever sides are available, and only when both are present
cross-classify on the sign pair (`> 0` on each side). -/
def analyzeSentiment (today : String) (spot : Option SpotData)
    (fut : Option FuturesData) : SentimentResult :=
  let base : SentimentResult :=
    { sentiment := SENTIMENT_UNKNOWN, spot_net := 0, spot_direction := "N/A",
      futures_oi_change := 0, futures_direction := "N/A", date := today }
  let r1 := match spot with
    | some s =>
        { base with spot_net := s.net_buy_billion,
                    spot_direction := if 0 < s.net_buy_billion then "買超" else "賣超",
                    date := s.date }
    | none => base
  let r2 := match fut with
    | some f =>
        { r1 with futures_oi_change := f.oi_change,
                  futures_direction := if 0 < f.oi_change then "多單增" else "空單增" }
    | none => r1
  match spot, fut with
  | some s, some f =>
      let spot_buy := 0 < s.net_buy_billion
      let futures_long := 0 < f.oi_change
      { r2 with sentiment :=
          if spot_buy ∧ futures_long then SENTIMENT_BULLISH
          else if spot_buy ∧ ¬futures_long then SENTIMENT_HEDGE
          else if ¬spot_buy ∧ ¬futures_long then SENTIMENT_BEARISH
          else SENTIMENT_BOTTOM }
  | _, _ => r2

/-- One cumulative-history entry of the bullish-pool tracker
(`bullish_pool.py`). -/
structure PoolEntry where
  first_date : String
  consecutive_days : Nat
  last_date : String
  removed_date : Option String
deriving DecidableEq, Repr

/-- Result of a daily pool update. -/
structure PoolUpdate where
  new_entries : Finset String
  removed : Finset String
  continued : Finset String
  stocks_history : String → Option PoolEntry

/-- The model of `BullishPoolTracker.update_pool` (`bullish_pool.py` lines
170–244).  The cumulative-history dict is modelled extensionally as a
function `id → Option PoolEntry`; the source's three update loops range over
the pairwise-disjoint python sets `new_entries`, `continued` and `removed`,
so their iteration order is immaterial and the updated dict is the pointwise
function below: fresh entries for new ids (replacing any stale entry, as
the source's assignment does), incremented counters for continued ids
(created afresh when the id is missing from the history), and a `removed_date`
stamp — without deletion — for removed ids present in the history. -/
def updatePool (today_ids yesterday_ids : Finset String)
    (history : String → Option PoolEntry) (today : String) : PoolUpdate :=
  let new_entries := today_ids \ yesterday_ids
  let removed := yesterday_ids \ today_ids
  let continued := today_ids ∩ yesterday_ids
  { new_entries := new_entries
    removed := removed
    continued := continued
    stocks_history := fun sid =>
      if sid ∈ new_entries then
        some { first_date := today, consecutive_days := 1, last_date := today,
               removed_date := none }
      else if sid ∈ continued then
        match history sid with
        | some e => some { e with consecutive_days := e.consecutive_days + 1,
                                  last_date := today }
        | none => some { first_date := today, consecutive_days := 1, last_date := today,
                         removed_date := none }
      else if sid ∈ removed then
        match history sid with
        | some e => some { e with removed_date := some today }
        | none => history sid
      else history sid }

/-- Row `r'` is row-equal to `r` on all the columns `r` carries: the quote
core agrees and every derived column of `r` is present in `r'` with the same
value. -/
def extendsRow (r' r : Row) : Prop :=
  r'.quote = r.quote ∧ ∀ k v, r.extras.lookup k = some v → r'.extras.lookup k = some v

/-- The columns a stage writes for row `r` are fresh, i.e. not already
present among `r`'s derived columns (as is the case at every stage position
of both chains: no two stages of a chain write the same column name). -/
def freshCols (f : Row → List (String × CVal) × Bool) (r : Row) : Prop :=
  ∀ p ∈ (f r).1, r.extras.lookup p.1 = none

/-! Concrete sample inputs, drawn from the spec's end-to-end scenarios
(S1, S5, S6), used by the witnesses below. -/

/-- An oracle environment in which every side query comes back empty. -/
def exOracles : Oracles :=
  { hist := fun _ _ => []
    market_cap_table := none
    shares_table := none
    benchmark_change := none
    time_ratio := 1
    revenue := fun _ => none
    eps4q := fun _ => none
    major_holder := fun _ => none
    accum := fun _ => none }

/-- A sample batch row in the spirit of scenario S1's row A: up 5% on the
day. -/
def exRowA : Row :=
  { quote := { stock_id := "1101", stock_name := "A", price := 42, open_price := 40,
               high := 42, low := 40, volume := 1200, prev_close := 40, change_pct := 5,
               market := "TWSE" }
    extras := [] }

/-- A sample row flat on the day (S1 row B). -/
def exRowB : Row :=
  { quote := { stock_id := "2330", stock_name := "B", price := 600, open_price := 600,
               high := 600, low := 600, volume := 500, prev_close := 600, change_pct := 0,
               market := "TWSE" }
    extras := [] }

/-- A sample row tying with `exRowA` at +5% (S1 row C), to exercise the
stable tie handling of the final ranking. -/
def exRowC : Row :=
  { quote := { stock_id := "9999", stock_name := "C", price := 21, open_price := 20,
               high := 21, low := 20, volume := 800, prev_close := 20, change_pct := 5,
               market := "TPEx" }
    extras := [] }

/-- One row of the seventeen-row tie batch: every such row is up exactly
+5% on the day, so the whole batch is a single `change_pct` tie group. -/
def mkTiedRow (sid : String) : Row :=
  { quote := { stock_id := sid, stock_name := sid, price := 42, open_price := 40,
               high := 42, low := 40, volume := 100, prev_close := 40, change_pct := 5,
               market := "TWSE" }
    extras := [] }

/-- Seventeen rows all tied at +5% — one element beyond numpy's 16-element
insertion-sort cutoff, so `argsort(kind="quicksort")` runs one introsort
partition pass over them. -/
def exBatch17 : List Row :=
  [mkTiedRow "s00", mkTiedRow "s01", mkTiedRow "s02", mkTiedRow "s03",
   mkTiedRow "s04", mkTiedRow "s05", mkTiedRow "s06", mkTiedRow "s07",
   mkTiedRow "s08", mkTiedRow "s09", mkTiedRow "s10", mkTiedRow "s11",
   mkTiedRow "s12", mkTiedRow "s13", mkTiedRow "s14", mkTiedRow "s15",
   mkTiedRow "s16"]

/-- The output numpy's default argsort actually produces on
`exBatch17.reverse` (seventeen equal keys), traced through numpy's
`npysort` introsort (`aquicksort`, `SMALL_QUICKSORT = 15`): on the index
array `[0..16]` with every key comparison `LT` false, the partition pass
picks `pm = 8`, the median-of-3 swaps nothing, the pivot entry is parked by
swapping positions 8 and 15, the scan then swaps positions (1,14), (2,13),
(3,12), (4,11), (5,10), (6,9), (7,8) and stops at `pi = 8`, and the closing
swap of positions 8 and 15 restores the pivot — yielding the index order
`[0,14,13,12,11,10,9,15,8,6,5,4,3,2,1,7,16]`; both remaining halves
(length 8) fall under the cutoff and their all-equal insertion sorts change
nothing.  Applying that index order to `exBatch17.reverse`
(`[s16, s15, …, s00]`) gives the row list below. -/
def exNumpyArgsortOut : List Row :=
  [mkTiedRow "s16", mkTiedRow "s02", mkTiedRow "s03", mkTiedRow "s04",
   mkTiedRow "s05", mkTiedRow "s06", mkTiedRow "s07", mkTiedRow "s01",
   mkTiedRow "s08", mkTiedRow "s10", mkTiedRow "s11", mkTiedRow "s12",
   mkTiedRow "s13", mkTiedRow "s14", mkTiedRow "s15", mkTiedRow "s09",
   mkTiedRow "s00"]

/-- The argsort routine pinned to its traced behavior on the tie batch (the
one input the counterexample feeds it). -/
def exNumpyArgsort : List Row → List Row := fun _ => exNumpyArgsortOut

/-- A sample candle for the history-store scenarios. -/
def exCandle : Candle :=
  { date := "2025-01-02", open_price := 10, high := 11, low := 9, close := 10, volume := 1000 }

/-- A history request whose primary response is the 402 quota answer. -/
def exReqQuota : HistRequest :=
  { stock_id := "1101", days := 60, primary := .quota, fallback := [] }

/-- A later cache-missing history request with a healthy primary response. -/
def exReqAfter : HistRequest :=
  { stock_id := "2330", days := 60, primary := .ok [exCandle], fallback := [] }

/-- A fetcher state whose cache already holds the 60-day history of
`1101`. -/
def exCachedState : FetchState :=
  { hist_data_cache := [(cacheKey "1101" 60, [exCandle])]
    finmind_available := true
    finmind_fail_count := 0 }

/-- A cumulative pool history holding scenario S6's three incumbents. -/
def exPoolHistory : String → Option PoolEntry := fun sid =>
  if sid = "1101" then
    some { first_date := "20251001", consecutive_days := 5, last_date := "20251010",
           removed_date := none }
  else if sid = "2330" then
    some { first_date := "20251006", consecutive_days := 3, last_date := "20251010",
           removed_date := none }
  else if sid = "2454" then
    some { first_date := "20251009", consecutive_days := 2, last_date := "20251010",
           removed_date := none }
  else none

/-- C1: for mode "left" the pipeline is the ordered composition of exactly
the eleven stages MarketCap, RevenueGrowth, PERatio, HigherLows, Pullback,
VolumePriceHealth, VolumeShrink, RSIOversold, TurnoverRate, MajorHolder,
QuietAccumulation (each a `screen(batch) → batch` stage via `screenOf`), in
that order; in particular HigherLows sits at position 4 and
VolumePriceHealth at position 6. -/
theorem left_chain_eleven_stages :
    initScreeners "left" =
      [.marketCap, .revenueGrowth, .peRatio, .higherLows, .pullback,
       .volumePriceHealth, .volumeShrink, .rsiOversold, .turnoverRate,
       .majorHolder, .quietAccumulation] ∧
    (initScreeners "left").length = 11 ∧
    (initScreeners "left").get? 3 = some .higherLows ∧
    (initScreeners "left").get? 5 = some .volumePriceHealth := by
  refine ⟨by decide, by decide, by decide, by decide⟩

/-- C3 counterexample: on an external interrupt the orchestrator exits with
code 0, not 130 (`main.py` line 327 runs `sys.exit(0)` in the
`KeyboardInterrupt` handler). -/
theorem interrupt_exit_code_counterexample :
    mainExitCode .interrupted = 0 ∧ mainExitCode .interrupted ≠ 130 :=
  ⟨rfl, by decide⟩

/-- C3 amended: the orchestrator exits 0 on success, 1 on an uncaught
error, and 0 (not 130) when interrupted. -/
theorem exit_codes_amended :
    mainExitCode .success = 0 ∧ mainExitCode .uncaughtError = 1 ∧
    mainExitCode .interrupted = 0 :=
  ⟨rfl, rfl, rfl⟩

/-- C10: `get_stats` never divides by zero — a zero input count reports the
string "0%", and a positive input count reports `output/input × 100`
formatted to one decimal place. -/
theorem get_stats_pass_rate (step : Nat) (name : String) (input output : Nat) :
    (input = 0 → (getStats step name input output).pass_rate = "0%") ∧
    (0 < input →
      (getStats step name input output).pass_rate =
        fmtPct1 ((output : ℚ) / (input : ℚ) * 100)) := by
  constructor
  · intro h
    simp [getStats, h]
  · intro h
    simp [getStats, Nat.pos_iff_ne_zero.mp h]

/-- C10 witness: the two branches of `get_stats_pass_rate` at concrete
counts 0/0 and 4/2. -/
theorem get_stats_pass_rate_witness :
    (getStats 1 "市值 >= 50億" 0 0).pass_rate = "0%" ∧
    (getStats 1 "市值 >= 50億" 4 2).pass_rate =
      fmtPct1 (((2 : Nat) : ℚ) / ((4 : Nat) : ℚ) * 100) :=
  ⟨(get_stats_pass_rate 1 "市值 >= 50億" 0 0).1 rfl,
   (get_stats_pass_rate 1 "市值 >= 50億" 4 2).2 (by norm_num)⟩

/-- C7: with both sides available the analyzer classifies by the sign pair
(spot net buy, futures OI change): (+,+) BULLISH, (+,−) HEDGE, (−,−)
BEARISH, (−,+) BOTTOM; with exactly one side available the label is UNKNOWN
and the available side's figures are carried through. -/
theorem foreign_sentiment_classification (today : String) (s : SpotData) (f : FuturesData) :
    ((0 < s.net_buy_billion → 0 < f.oi_change →
        (analyzeSentiment today (some s) (some f)).sentiment = SENTIMENT_BULLISH) ∧
     (0 < s.net_buy_billion → f.oi_change ≤ 0 →
        (analyzeSentiment today (some s) (some f)).sentiment = SENTIMENT_HEDGE) ∧
     (s.net_buy_billion ≤ 0 → f.oi_change ≤ 0 →
        (analyzeSentiment today (some s) (some f)).sentiment = SENTIMENT_BEARISH) ∧
     (s.net_buy_billion ≤ 0 → 0 < f.oi_change →
        (analyzeSentiment today (some s) (some f)).sentiment = SENTIMENT_BOTTOM)) ∧
    ((analyzeSentiment today (some s) none).sentiment = SENTIMENT_UNKNOWN ∧
     (analyzeSentiment today (some s) none).spot_net = s.net_buy_billion ∧
     (analyzeSentiment today none (some f)).sentiment = SENTIMENT_UNKNOWN ∧
     (analyzeSentiment today none (some f)).futures_oi_change = f.oi_change) := by
  refine ⟨⟨?_, ?_, ?_, ?_⟩, ?_, ?_, ?_, ?_⟩
  · intro h1 h2
    simp [analyzeSentiment, h1, h2]
  · intro h1 h2
    simp [analyzeSentiment, h1, not_lt.mpr h2]
  · intro h1 h2
    simp [analyzeSentiment, not_lt.mpr h1, not_lt.mpr h2]
  · intro h1 h2
    simp [analyzeSentiment, not_lt.mpr h1, h2]
  · simp [analyzeSentiment]
  · simp [analyzeSentiment]
  · simp [analyzeSentiment]
  · simp [analyzeSentiment]

/-- C7 witness: scenario S5 — spot +12.3 with futures +4500 classifies
BULLISH, spot −5.1 with futures +2100 classifies BOTTOM. -/
theorem foreign_sentiment_classification_witness :
    (analyzeSentiment "2025-10-09" (some ⟨123/10, "2025-10-09"⟩) (some ⟨4500⟩)).sentiment =
      SENTIMENT_BULLISH ∧
    (analyzeSentiment "2025-10-09" (some ⟨-(51/10), "2025-10-09"⟩) (some ⟨2100⟩)).sentiment =
      SENTIMENT_BOTTOM :=
  ⟨(foreign_sentiment_classification "2025-10-09" ⟨123/10, "2025-10-09"⟩ ⟨4500⟩).1.1
      (by norm_num) (by norm_num),
   (foreign_sentiment_classification "2025-10-09" ⟨-(51/10), "2025-10-09"⟩ ⟨2100⟩).1.2.2.2
      (by norm_num) (by norm_num)⟩

/-- C5 counterexample: the quote source stores `change_pct` rounded to two
decimals, so at price 40 over prev_close 38 the stored 5.26 differs from the
exact 100·(40−38)/38 = 5.263157… by about 3.2·10⁻³, violating the claimed
10⁻⁶ tolerance. -/
theorem change_pct_tolerance_counterexample :
    0 < (mkQuoteRow "1101" "A" 40 (77/2) (81/2) (192/5) 1200 38 "TWSE").prev_close ∧
    ¬ |(mkQuoteRow "1101" "A" 40 (77/2) (81/2) (192/5) 1200 38 "TWSE").change_pct -
        ((40 : ℚ) - 38) / 38 * 100| < 1 / 1000000 := by
  have hround : round ((10000 : ℚ) / 19) = 526 := by
    rw [round_eq]
    have h38 : ((10000 : ℚ) / 19 + 1 / 2) = 20019 / 38 := by norm_num
    rw [h38]
    exact Int.floor_eq_iff.mpr ⟨by norm_num, by norm_num⟩
  have hcp : (mkQuoteRow "1101" "A" 40 (77/2) (81/2) (192/5) 1200 38 "TWSE").change_pct =
      263 / 50 := by
    simp only [mkQuoteRow]
    rw [if_pos (by norm_num : (38 : ℚ) > 0), round2]
    have harg : ((40 : ℚ) - 38) / 38 * 100 * 100 = 10000 / 19 := by norm_num
    rw [harg, hround]
    norm_num
  constructor
  · norm_num [mkQuoteRow]
  · rw [hcp]
    have habs : |(263 : ℚ) / 50 - (40 - 38) / 38 * 100| = 3 / 950 := by
      rw [abs_eq (by norm_num : (0 : ℚ) ≤ 3 / 950)]
      right
      norm_num
    rw [habs]
    norm_num

/-- C5 amended: the stored `change_pct` is the exact relative change rounded
to two decimal places, hence within 1/200 = 0.005 of
`100×(price−prev_close)/prev_close` whenever `prev_close > 0`. -/
theorem change_pct_rounded_consistency (sid name : String) (price opn high low : ℚ)
    (volume : ℤ) (prev : ℚ) (mkt : String) (h : 0 < prev) :
    |(mkQuoteRow sid name price opn high low volume prev mkt).change_pct -
      (price - prev) / prev * 100| ≤ 1 / 200 := by
  have hcp : (mkQuoteRow sid name price opn high low volume prev mkt).change_pct =
      round2 ((price - prev) / prev * 100) := by
    simp only [mkQuoteRow]
    rw [if_pos h]
  rw [hcp]
  set x : ℚ := (price - prev) / prev * 100 with hx
  have h1 : round2 x - x = ((round (x * 100) : ℚ) - x * 100) / 100 := by
    rw [round2]; ring
  rw [h1, abs_div]
  have h2 : |(100 : ℚ)| = 100 := by norm_num
  rw [h2]
  have h3 : |(round (x * 100) : ℚ) - x * 100| ≤ 1 / 2 := by
    rw [abs_sub_comm]
    exact abs_sub_round (x * 100)
  calc |(round (x * 100) : ℚ) - x * 100| / 100 ≤ (1 / 2) / 100 := by
        exact (div_le_div_iff_of_pos_right (by norm_num)).mpr h3
    _ = 1 / 200 := by norm_num

/-- C5 witness: the amended bound at the concrete S1 row A. -/
theorem change_pct_rounded_consistency_witness :
    (0 : ℚ) < 38 ∧
    |(mkQuoteRow "1101" "A" 40 (77/2) (81/2) (192/5) 1200 38 "TWSE").change_pct -
      ((40 : ℚ) - 38) / 38 * 100| ≤ 1 / 200 :=
  ⟨by norm_num,
   change_pct_rounded_consistency "1101" "A" 40 (77/2) (81/2) (192/5) 1200 38 "TWSE"
     (by norm_num)⟩

/-- The primary-provider transition never touches the history cache. -/
theorem finmindFetch_cache (s : FetchState) (days : Nat) (resp : FinMindResp) :
    (finmindFetch s days resp).1.hist_data_cache = s.hist_data_cache := by
  cases resp with
  | quota => rfl
  | bad => rfl
  | ok d => cases d <;> rfl

/-- No primary-provider transition resurrects `_finmind_available`. -/
theorem finmindFetch_available_mono (s : FetchState) (days : Nat) (resp : FinMindResp)
    (h : s.finmind_available = false) :
    (finmindFetch s days resp).1.finmind_available = false := by
  cases resp with
  | quota =>
      simp only [finmindFetch]
      split
      · rfl
      · exact h
  | bad => exact h
  | ok d => cases d <;> exact h

/-- With the primary latched off, a single `get_historical_data` call does
not consult the primary and leaves the latch off. -/
theorem getHistoricalData_unavailable (s : FetchState) (sid : String) (days : Nat)
    (p : FinMindResp) (fb : List Candle) (h : s.finmind_available = false) :
    (getHistoricalData s sid days p fb).consulted_primary = false ∧
    (getHistoricalData s sid days p fb).state.finmind_available = false := by
  unfold getHistoricalData
  cases hcl : s.hist_data_cache.lookup (cacheKey sid days) with
  | some df => exact ⟨rfl, h⟩
  | none =>
      dsimp only
      rw [h]
      refine ⟨rfl, ?_⟩
      simp only [Bool.false_eq_true, if_false]
      rw [apply_ite FetchState.finmind_available]
      dsimp only
      rw [ite_self]
      exact h

/-- With the primary latched off, an entire remaining run never consults the
primary and ends with the latch still off. -/
theorem runFetch_unavailable (reqs : List HistRequest) (s : FetchState)
    (h : s.finmind_available = false) :
    (runFetch s reqs).1.finmind_available = false ∧
    ∀ r ∈ (runFetch s reqs).2, r.consulted_primary = false := by
  induction reqs generalizing s with
  | nil => exact ⟨h, by intro r hr; cases hr⟩
  | cons req rest ih =>
      have hg := getHistoricalData_unavailable s req.stock_id req.days req.primary
        req.fallback h
      have ih' := ih (getHistoricalData s req.stock_id req.days req.primary
        req.fallback).state hg.2
      constructor
      · exact ih'.1
      · intro r hr
        simp only [runFetch, List.mem_cons] at hr
        rcases hr with rfl | hr
        · exact hg.1
        · exact ih'.2 r hr

/-- C2 counterexample: starting from a fresh fetcher state, the first call's
primary response is the 402 quota answer, yet the second (cache-missing)
call still consults the primary — a single 402 does not latch the store. -/
theorem provider_latch_counterexample :
    exReqQuota.primary = .quota ∧
    (runFetch initFetchState [exReqQuota, exReqAfter]).2.map
      (fun r => r.consulted_primary) = [true, true] := by
  exact ⟨rfl, by decide⟩

/-- C2 amended: the latch engages only when a 402 arrives with the
consecutive-failure counter already at 2 (so that it reaches
`_max_fail_count = 3`); from that point on, the primary is never consulted
again for the rest of the run and the latch never clears.  A 402 arriving
earlier only sends the current call to the fallback. -/
theorem provider_latch_amended (s : FetchState) (days : Nat) (reqs : List HistRequest)
    (h : 2 ≤ s.finmind_fail_count) :
    (finmindFetch s days .quota).1.finmind_available = false ∧
    (runFetch (finmindFetch s days .quota).1 reqs).1.finmind_available = false ∧
    ∀ r ∈ (runFetch (finmindFetch s days .quota).1 reqs).2,
      r.consulted_primary = false := by
  have hlatch : (finmindFetch s days .quota).1.finmind_available = false := by
    simp only [finmindFetch]
    rw [if_pos]
    simp only [maxFailCount]
    omega
  obtain ⟨h1, h2⟩ := runFetch_unavailable reqs _ hlatch
  exact ⟨hlatch, h1, h2⟩

/-- C2 witness: with two failures already recorded, a 402 latches the store
and the following request is served without consulting the primary. -/
theorem provider_latch_amended_witness :
    2 ≤ (FetchState.mk [] true 2).finmind_fail_count ∧
    (finmindFetch ⟨[], true, 2⟩ 60 .quota).1.finmind_available = false ∧
    (runFetch (finmindFetch ⟨[], true, 2⟩ 60 .quota).1 [exReqAfter]).2.map
      (fun r => r.consulted_primary) = [false] :=
  ⟨by norm_num,
   (provider_latch_amended ⟨[], true, 2⟩ 60 [exReqAfter] (by norm_num)).1,
   by decide⟩

/-- C9: the per-run history cache (a) only ever stores nonempty candle
sequences, (b) is left untouched by a call whose final result is empty (so
the same key retries the providers later), and (c) answers a cached key
with the cached sequence, changing nothing. -/
theorem hist_cache_behavior (s : FetchState) (sid : String) (days : Nat)
    (p : FinMindResp) (fb : List Candle) :
    ((∀ kv ∈ s.hist_data_cache, kv.2 ≠ ([] : List Candle)) →
       ∀ kv ∈ (getHistoricalData s sid days p fb).state.hist_data_cache,
         kv.2 ≠ ([] : List Candle)) ∧
    ((getHistoricalData s sid days p fb).data = [] →
       (getHistoricalData s sid days p fb).state.hist_data_cache =
         s.hist_data_cache) ∧
    (∀ v, s.hist_data_cache.lookup (cacheKey sid days) = some v →
       (getHistoricalData s sid days p fb).data = v ∧
       (getHistoricalData s sid days p fb).state = s) := by
  unfold getHistoricalData
  cases hcl : s.hist_data_cache.lookup (cacheKey sid days) with
  | some v0 =>
      refine ⟨fun hinv kv hkv => hinv kv hkv, fun _ => rfl, ?_⟩
      intro v hv
      cases hv
      exact ⟨rfl, rfl⟩
  | none =>
      dsimp only
      set pr := (if s.finmind_available = true then finmindFetch s days p else (s, []))
        with hpr
      set df2 := (if pr.2 = [] then fb else pr.2) with hdf2
      have hcache : pr.1.hist_data_cache = s.hist_data_cache := by
        rw [hpr]
        split
        · exact finmindFetch_cache s days p
        · rfl
      refine ⟨?_, ?_, ?_⟩
      · intro hinv kv hkv
        by_cases hd : df2 = []
        · rw [if_pos hd] at hkv
          rw [hcache] at hkv
          exact hinv kv hkv
        · rw [if_neg hd] at hkv
          dsimp only at hkv
          rw [hcache] at hkv
          rcases List.mem_append.mp hkv with hmem | hmem
          · exact hinv kv hmem
          · rcases List.mem_singleton.mp hmem with rfl
            exact hd
      · intro hd
        rw [if_pos hd, hcache]
      · intro v hv
        exact Option.noConfusion hv

/-- C9 witness: a call on a key already cached with a nonempty history is
answered from the cache and changes nothing, even when the providers would
fail. -/
theorem hist_cache_behavior_witness :
    (getHistoricalData exCachedState "1101" 60 .bad []).data = [exCandle] ∧
    (getHistoricalData exCachedState "1101" 60 .bad []).state = exCachedState :=
  (hist_cache_behavior exCachedState "1101" 60 .bad []).2.2 [exCandle] (by decide)

/-- C8: the daily pool update computes `new = T \ Y`, `removed = Y \ T` and
`continued = T ∩ Y`; every continued ticker with a history entry has its
`consecutive_days` incremented by 1, every new ticker starts at 1,
and every removed ticker with a history entry is stamped with
`removed_date` while its entry is kept. -/
theorem bullish_pool_update_correct (T Y : Finset String)
    (hist : String → Option PoolEntry) (today : String) :
    (updatePool T Y hist today).new_entries = T \ Y ∧
    (updatePool T Y hist today).removed = Y \ T ∧
    (updatePool T Y hist today).continued = T ∩ Y ∧
    (∀ sid ∈ (updatePool T Y hist today).continued, ∀ e, hist sid = some e →
       (updatePool T Y hist today).stocks_history sid =
         some { e with consecutive_days := e.consecutive_days + 1, last_date := today }) ∧
    (∀ sid ∈ (updatePool T Y hist today).new_entries,
       (updatePool T Y hist today).stocks_history sid =
         some { first_date := today, consecutive_days := 1, last_date := today,
                removed_date := none }) ∧
    (∀ sid ∈ (updatePool T Y hist today).removed, ∀ e, hist sid = some e →
       (updatePool T Y hist today).stocks_history sid =
         some { e with removed_date := some today } ∧
       (updatePool T Y hist today).stocks_history sid ≠ none) := by
  refine ⟨rfl, rfl, rfl, ?_, ?_, ?_⟩
  · intro sid hsid e he
    have hY : sid ∈ Y := (Finset.mem_inter.mp hsid).2
    have hnew : sid ∉ T \ Y := fun hc => (Finset.mem_sdiff.mp hc).2 hY
    simp only [updatePool] at hsid ⊢
    rw [if_neg hnew, if_pos hsid, he]
  · intro sid hsid
    simp only [updatePool] at hsid ⊢
    rw [if_pos hsid]
  · intro sid hsid e he
    have hT : sid ∉ T := (Finset.mem_sdiff.mp hsid).2
    have hnew : sid ∉ T \ Y := fun hc => hT (Finset.mem_sdiff.mp hc).1
    have hcont : sid ∉ T ∩ Y := fun hc => hT (Finset.mem_inter.mp hc).1
    simp only [updatePool] at hsid ⊢
    rw [if_neg hnew, if_neg hcont, if_pos hsid, he]
    exact ⟨rfl, by simp⟩

/-- C8 witness: scenario S6 — yesterday {1101, 2330, 2454}, today
{1101, 2330, 3008}: new = {3008}, removed = {2454}, continued =
{1101, 2330}; 1101's counter goes 5 → 6, 3008 starts at 1, and 2454's
entry gains `removed_date` without being deleted. -/
theorem bullish_pool_update_witness :
    (updatePool {"1101", "2330", "3008"} {"1101", "2330", "2454"} exPoolHistory
        "20251011").new_entries = {"3008"} ∧
    (updatePool {"1101", "2330", "3008"} {"1101", "2330", "2454"} exPoolHistory
        "20251011").removed = {"2454"} ∧
    (updatePool {"1101", "2330", "3008"} {"1101", "2330", "2454"} exPoolHistory
        "20251011").continued = {"1101", "2330"} ∧
    (updatePool {"1101", "2330", "3008"} {"1101", "2330", "2454"} exPoolHistory
        "20251011").stocks_history "1101" =
      some { first_date := "20251001", consecutive_days := 6, last_date := "20251011",
             removed_date := none } ∧
    (updatePool {"1101", "2330", "3008"} {"1101", "2330", "2454"} exPoolHistory
        "20251011").stocks_history "3008" =
      some { first_date := "20251011", consecutive_days := 1, last_date := "20251011",
             removed_date := none } ∧
    (updatePool {"1101", "2330", "3008"} {"1101", "2330", "2454"} exPoolHistory
        "20251011").stocks_history "2454" =
      some { first_date := "20251009", consecutive_days := 2, last_date := "20251010",
             removed_date := some "20251011" } := by
  have h := bullish_pool_update_correct {"1101", "2330", "3008"}
    {"1101", "2330", "2454"} exPoolHistory "20251011"
  refine ⟨by decide, by decide, by decide, ?_, ?_, ?_⟩
  · exact h.2.2.2.1 "1101" (by decide)
      { first_date := "20251001", consecutive_days := 5, last_date := "20251010",
        removed_date := none } (by decide)
  · exact h.2.2.2.2.1 "3008" (by decide)
  · exact (h.2.2.2.2.2 "2454" (by decide)
      { first_date := "20251009", consecutive_days := 2, last_date := "20251010",
        removed_date := none } (by decide)).1

/-- Overwriting a different key leaves a lookup unchanged (map branch of
`setCol`). -/
theorem lookup_map_overwrite (k k' : String) (v' : CVal) (es : List (String × CVal))
    (h : k ≠ k') :
    (es.map (fun p => if p.1 = k' then (k', v') else p)).lookup k = es.lookup k := by
  induction es with
  | nil => rfl
  | cons p es ih =>
      obtain ⟨pk, pv⟩ := p
      by_cases hp : pk = k'
      · subst hp
        have hk : (k == pk) = false := beq_eq_false_iff_ne.mpr h
        have hhead : (if (pk, pv).1 = pk then (pk, v') else (pk, pv)) = (pk, v') := by
          simp
        simp only [List.map_cons, hhead, if_true, List.lookup_cons, hk, ih]
      · have hhead : (if (pk, pv).1 = k' then (k', v') else (pk, pv)) = (pk, pv) := by
          simp [hp]
        simp only [List.map_cons, hhead, List.lookup_cons]
        cases hk : (k == pk) with
        | true => rfl
        | false => exact ih

/-- Appending a binding for a different key leaves a lookup unchanged
(append branch of `setCol`). -/
theorem lookup_append_singleton_ne (k k' : String) (v' : CVal)
    (es : List (String × CVal)) (h : k ≠ k') :
    (es ++ [(k', v')]).lookup k = es.lookup k := by
  induction es with
  | nil =>
      have hk : (k == k') = false := beq_eq_false_iff_ne.mpr h
      simp [List.lookup_cons, hk]
  | cons p es ih =>
      obtain ⟨pk, pv⟩ := p
      simp only [List.cons_append, List.lookup_cons]
      cases hk : (k == pk) with
      | true => rfl
      | false => exact ih

/-- A column assignment under a different name preserves a lookup. -/
theorem lookup_setCol_ne (k k' : String) (v' : CVal) (es : List (String × CVal))
    (h : k ≠ k') : (setCol es k' v').lookup k = es.lookup k := by
  unfold setCol
  split
  · exact lookup_map_overwrite k k' v' es h
  · exact lookup_append_singleton_ne k k' v' es h

/-- A sequence of column assignments under names other than `k` preserves
the lookup of `k`. -/
theorem lookup_setCols_ne (k : String) (cols : List (String × CVal))
    (es : List (String × CVal)) (h : ∀ p ∈ cols, p.1 ≠ k) :
    (setCols es cols).lookup k = es.lookup k := by
  induction cols generalizing es with
  | nil => rfl
  | cons c cols ih =>
      show (setCols (setCol es c.1 c.2) cols).lookup k = es.lookup k
      rw [ih (setCol es c.1 c.2) (fun p hp => h p (List.mem_cons_of_mem _ hp))]
      exact lookup_setCol_ne k c.1 c.2 es (fun he => h c (List.mem_cons_self _ _) he.symm)

/-- Overwriting key `k` in every binding that carries it makes its lookup
return the new value, provided some binding carries it. -/
theorem lookup_map_overwrite_self (k : String) (v : CVal) (es : List (String × CVal))
    (h : es.any (fun p => p.1 = k) = true) :
    (es.map (fun p => if p.1 = k then (k, v) else p)).lookup k = some v := by
  induction es with
  | nil => simp at h
  | cons p es ih =>
      obtain ⟨pk, pv⟩ := p
      by_cases hp : pk = k
      · subst hp
        simp [List.lookup_cons]
      · have h' : es.any (fun p => p.1 = k) = true := by
          simpa [hp] using h
        have hk : (k == pk) = false := beq_eq_false_iff_ne.mpr (fun he => hp he.symm)
        simp only [List.map_cons, if_neg hp, List.lookup_cons, hk]
        exact ih h'

/-- Appending a binding for key `k` makes its lookup return the new value,
provided no earlier binding carries it. -/
theorem lookup_append_singleton_self (k : String) (v : CVal)
    (es : List (String × CVal)) (h : es.any (fun p => p.1 = k) = false) :
    (es ++ [(k, v)]).lookup k = some v := by
  induction es with
  | nil => simp [List.lookup_cons]
  | cons p es ih =>
      obtain ⟨pk, pv⟩ := p
      have hp : pk ≠ k := by
        intro he
        simp [he] at h
      have h' : es.any (fun p => p.1 = k) = false := by
        simpa [hp] using h
      have hk : (k == pk) = false := beq_eq_false_iff_ne.mpr (fun he => hp he.symm)
      simp only [List.cons_append, List.lookup_cons, hk]
      exact ih h'

/-- A column assignment makes the assigned column's lookup return the
assigned value. -/
theorem lookup_setCol_self (es : List (String × CVal)) (k : String) (v : CVal) :
    (setCol es k v).lookup k = some v := by
  unfold setCol
  split
  · exact lookup_map_overwrite_self k v es (by assumption)
  · rename_i hany
    exact lookup_append_singleton_self k v es (Bool.eq_false_iff.mpr hany)

/-- Every run of a stage body keeps at most the input rows, and each kept
row extends an input row (given that the stage writes only fresh column
names, as every stage position of both chains does). -/
theorem runScreen_sound (f : Row → List (String × CVal) × Bool) (rows : List Row)
    (h : ∀ r ∈ rows, freshCols f r) :
    (runScreen f rows).length ≤ rows.length ∧
    ∀ r' ∈ runScreen f rows, ∃ r ∈ rows, extendsRow r' r := by
  constructor
  · exact List.length_filterMap_le _ _
  · intro r' hr'
    unfold runScreen at hr'
    rcases List.mem_filterMap.mp hr' with ⟨r, hr, hfr⟩
    refine ⟨r, hr, ?_⟩
    split at hfr
    · cases hfr
      refine ⟨rfl, ?_⟩
      intro k v hkv
      have hne : ∀ p ∈ (f r).1, p.1 ≠ k := by
        intro p hp he
        have hnone := h r hr p hp
        rw [he] at hnone
        rw [hnone] at hkv
        exact Option.noConfusion hkv
      show (setCols r.extras (f r).1).lookup k = some v
      rw [lookup_setCols_ne k (f r).1 r.extras hne]
      exact hkv
    · exact Option.noConfusion hfr

/-- C6: for every screener stage and every input batch, the output has at
most as many rows as the input, and every output row is row-equal, on the
columns present in the input, to some input row — stages only remove rows
and add columns. -/
theorem stage_monotone_elimination (k : ScreenerKind) (o : Oracles) (rows : List Row)
    (h : ∀ r ∈ rows, freshCols (stageRow k o) r) :
    (screenOf k o rows).length ≤ rows.length ∧
    ∀ r' ∈ screenOf k o rows, ∃ r ∈ rows, extendsRow r' r :=
  runScreen_sound (stageRow k o) rows h

/-- C6 witness: the price-change stage on a concrete two-row batch keeps at
most two rows, and the surviving row A extends an input row. -/
theorem stage_monotone_elimination_witness :
    (screenOf .priceChange exOracles [exRowA, exRowB]).length ≤
      ([exRowA, exRowB] : List Row).length ∧
    ∃ r ∈ ([exRowA, exRowB] : List Row), extendsRow exRowA r := by
  have h := stage_monotone_elimination .priceChange exOracles [exRowA, exRowB]
    (fun r _ p hp => absurd hp (List.not_mem_nil p))
  refine ⟨h.1, h.2 exRowA ?_⟩
  decide

/-- The `change_pct` comparison is transitive. -/
theorem leChangePct_trans (a b c : Row) (hab : leChangePct a b)
    (hbc : leChangePct b c) : leChangePct a c := by
  simp only [leChangePct, decide_eq_true_eq] at hab hbc ⊢
  exact le_trans hab hbc

/-- The `change_pct` comparison is total. -/
theorem leChangePct_total (a b : Row) : leChangePct a b || leChangePct b a := by
  simp only [leChangePct]
  rcases le_total a.quote.change_pct b.quote.change_pct with h | h
  · simp [h]
  · simp [h]

/-- C4 counterexample: on seventeen rows all tied at +5% — one element past
numpy's insertion-sort cutoff — the argsort output numpy's introsort
actually produces (`exNumpyArgsortOut`, trace in its doc comment) satisfies
the documented sort contract, yet the final descending batch does not keep
the tie group in its original quote-source order: the rows tied at 5 come
out as s00, s09, s15, … instead of s00, s01, s02, …. -/
theorem right_rank_stability_counterexample :
    SortsAsc (exNumpyArgsort exBatch17.reverse) exBatch17.reverse ∧
    ¬ ((sortByChangePctDesc exNumpyArgsort exBatch17).filter
        (fun r => decide (r.quote.change_pct = 5)) =
      exBatch17.filter (fun r => decide (r.quote.change_pct = 5))) := by
  refine ⟨⟨?_, ?_⟩, ?_⟩
  · decide
  · decide
  · decide

/-- C4 amended: for every argsort routine satisfying numpy's documented
contract (sorted permutation, tie order unspecified), after the right
chain's final step the `rank` column is exactly `1..N` in order,
`change_pct` is non-increasing down the batch, and the sorted batch is a
permutation of the input — the original claim's stable-tie-handling clause
is dropped, since the default quicksort argsort does not guarantee it. -/
theorem right_rank_ordering (argsortAsc : List Row → List Row) (rows : List Row)
    (hs : SortsAsc (argsortAsc rows.reverse) rows.reverse) (hne : rows ≠ []) :
    ((rankRightBatch argsortAsc rows).map (fun r => r.extras.lookup "rank") =
      (List.range rows.length).map (fun i : ℕ => some (CVal.i ((i : ℤ) + 1)))) ∧
    ((rankRightBatch argsortAsc rows).map (fun r => r.quote.change_pct)).Pairwise
      (fun a b => b ≤ a) ∧
    (sortByChangePctDesc argsortAsc rows).Perm rows := by
  have hempty : rows.isEmpty = false := by
    cases rows with
    | nil => exact absurd rfl hne
    | cons a l => rfl
  have hrank : rankRightBatch argsortAsc rows =
      (sortByChangePctDesc argsortAsc rows).enum.map fun p =>
        { p.2 with extras := setCol p.2.extras "rank" (.i ((p.1 : ℤ) + 1)) } := by
    rw [rankRightBatch, hempty]
    rfl
  have hlen : (sortByChangePctDesc argsortAsc rows).length = rows.length := by
    rw [sortByChangePctDesc, List.length_reverse, hs.1.length_eq, List.length_reverse]
  refine ⟨?_, ?_, ?_⟩
  · rw [hrank, List.map_map]
    have hcong : (sortByChangePctDesc argsortAsc rows).enum.map
        ((fun r => r.extras.lookup "rank") ∘ fun p =>
          { p.2 with extras := setCol p.2.extras "rank" (.i ((p.1 : ℤ) + 1)) }) =
        (sortByChangePctDesc argsortAsc rows).enum.map
          (fun p => some (CVal.i ((p.1 : ℤ) + 1))) := by
      apply List.map_congr_left
      intro p _
      exact lookup_setCol_self p.2.extras "rank" (.i ((p.1 : ℤ) + 1))
    rw [hcong, ← hlen, ← List.enum_map_fst (sortByChangePctDesc argsortAsc rows),
      List.map_map]
    rfl
  · rw [hrank, List.map_map]
    have hcomp : (sortByChangePctDesc argsortAsc rows).enum.map
        ((fun r => r.quote.change_pct) ∘ fun p =>
          { p.2 with extras := setCol p.2.extras "rank" (.i ((p.1 : ℤ) + 1)) }) =
        (sortByChangePctDesc argsortAsc rows).enum.map
          ((fun r : Row => r.quote.change_pct) ∘ Prod.snd) := by
      apply List.map_congr_left
      intro p _
      rfl
    rw [hcomp, ← List.map_map, List.enum_map_snd]
    rw [List.pairwise_map]
    have hrev : (sortByChangePctDesc argsortAsc rows).Pairwise
        (fun a b => leChangePct b a = true) := by
      rw [sortByChangePctDesc]
      exact List.pairwise_reverse.mpr hs.2
    refine hrev.imp ?_
    intro a b hab
    simpa [leChangePct, decide_eq_true_eq] using hab
  · show ((argsortAsc rows.reverse).reverse).Perm rows
    exact (List.reverse_perm _).trans (hs.1.trans (List.reverse_perm rows))

/-- C4 witness: the amended theorem at the concrete three-row batch with a
+5% tie, instantiating the argsort parameter with a stable merge sort — one
legitimate implementation of the documented contract. -/
theorem right_rank_ordering_witness :
    ((rankRightBatch (fun l => l.mergeSort leChangePct) [exRowA, exRowB, exRowC]).map
        (fun r => r.extras.lookup "rank") =
      (List.range ([exRowA, exRowB, exRowC] : List Row).length).map
        (fun i : ℕ => some (CVal.i ((i : ℤ) + 1)))) ∧
    ((rankRightBatch (fun l => l.mergeSort leChangePct) [exRowA, exRowB, exRowC]).map
        (fun r => r.quote.change_pct)).Pairwise (fun a b => b ≤ a) ∧
    (sortByChangePctDesc (fun l => l.mergeSort leChangePct)
        [exRowA, exRowB, exRowC]).Perm [exRowA, exRowB, exRowC] := by
  have hs : SortsAsc ((fun l => List.mergeSort l leChangePct)
      (([exRowA, exRowB, exRowC] : List Row).reverse))
      (([exRowA, exRowB, exRowC] : List Row).reverse) :=
    ⟨List.mergeSort_perm _ _,
     List.sorted_mergeSort leChangePct_trans leChangePct_total _⟩
  exact right_rank_ordering (fun l => l.mergeSort leChangePct) [exRowA, exRowB, exRowC]
    hs (by decide)
